import Mathlib

/-!
# aedis: tuple response adapter and connection request queue

A shallow embedding of

* `aedis/adapter/response_traits.hpp`: `static_aggregate_adapter`, the adapter
  that `response_traits<std::tuple<Ts...>>` selects for a tuple destination;
* `aedis/generic/connection.hpp`: the request queue (`prepare_back`,
  `add_request`), the adapter plumbing (`set_adapter`, `select_adapter`) and
  `close`.

`std::size_t` values are natural numbers and every arithmetic operation on them
is reduced modulo `2 ^ 64` explicitly.  An out-parameter
`boost::system::error_code& ec` is passed in and returned.
-/

namespace aedis

/-- Number of values of `std::size_t`: its arithmetic is modulo this number. -/
def size_t_mod : Nat := 2 ^ 64

namespace resp3

/-- Modelled from the spec: `aedis/resp3/type.hpp` is not among the sources; the
RESP3 value kinds are the ones listed in the data model of the specification. -/
inductive type where
  | simple_string
  | simple_error
  | blob_string
  | blob_error
  | number
  | doublean
  | boolean
  | null
  | big_number
  | verbatim_string
  | array
  | map
  | set
  | attribute
  | push
  | streamed_string
  | streamed_aggregate
  deriving DecidableEq, Repr

/-- Modelled from the spec: `is_aggregate` lives in `aedis/resp3/type.hpp`, which
is not among the sources.  The aggregate kinds of the data model are `array`,
`map`, `set`, `attribute`, `push` and the streamed aggregate. -/
def is_aggregate : type → Bool
  | .array => true
  | .map => true
  | .set => true
  | .attribute => true
  | .push => true
  | .streamed_aggregate => true
  | _ => false

/-- Modelled from the spec: `element_multiplicity` lives in
`aedis/resp3/type.hpp`, which is not among the sources.  A `map` of `N` pairs
expands into `2N` children and `attribute` behaves the same; every other kind
has multiplicity one. -/
def element_multiplicity : type → Nat
  | .map => 2
  | .attribute => 2
  | _ => 1

/-- The unit the parser emits: `resp3::node<boost::string_view>`. -/
structure node where
  data_type : type
  aggregate_size : Nat
  depth : Nat
  value : String
  deriving DecidableEq, Repr

end resp3

namespace adapter

/-- Modelled from the spec: `aedis/adapter/error.hpp` is not among the sources.
Only `error::incompatible_size` is used by `response_traits.hpp`; the other
decoding fault of the specification and an open-ended code stand for what slot
adapters may report. -/
inductive error where
  | incompatible_size
  | expects_scalar
  | other (code : Nat)
  deriving DecidableEq, Repr

end adapter

/-- A `boost::system::error_code`: `none` is success. -/
abbrev error_code := Option adapter.error

namespace adapter
namespace detail

open resp3

/-- The class `static_aggregate_adapter<Tuple>`.  `A` is the element type of
`adapters_` (a `variant` over the slot adapter types) and the tuple arity
`std::tuple_size<Tuple>::value` is the length of `adapters_`. -/
structure static_aggregate_adapter (A : Type) where
  i_ : Nat
  aggregate_size_ : Nat
  adapters_ : List A
  deriving DecidableEq, Repr

/-- What `visit([&](auto& arg){arg(nd, ec);}, a)` does to a slot adapter `a` and
to `ec`.  The slot adapter types are defined in
`aedis/adapter/detail/adapters.hpp`, which is not among the sources, so the
call is a parameter of the embedding. -/
abbrev slot_call (A : Type) := A → node → error_code → A × error_code

/-- The constructor `static_aggregate_adapter(Tuple* r)`: the cursor and the
counter start at zero and `adapters_` holds one adapter per tuple element. -/
def static_aggregate_adapter.init {A : Type} (adapters : List A) :
    static_aggregate_adapter A :=
  { i_ := 0, aggregate_size_ := 0, adapters_ := adapters }

/-- The member function `count`. -/
def static_aggregate_adapter.count {A : Type} (s : static_aggregate_adapter A)
    (nd : node) : static_aggregate_adapter A :=
  if nd.depth = 1 then
    if is_aggregate nd.data_type then
      { s with aggregate_size_ :=
          (element_multiplicity nd.data_type * nd.aggregate_size) % size_t_mod }
    else
      { s with i_ := (s.i_ + 1) % size_t_mod }
  else
    let r := (s.aggregate_size_ + size_t_mod - 1) % size_t_mod
    if r = 0 then
      { s with aggregate_size_ := r, i_ := (s.i_ + 1) % size_t_mod }
    else
      { s with aggregate_size_ := r }

/-- The local `real_aggr_size` of `operator()`: a product of two `std::size_t`. -/
def real_aggr_size (nd : node) : Nat :=
  (nd.aggregate_size * element_multiplicity nd.data_type) % size_t_mod

/-- The member function `operator()(nd, ec)`.  The result is `none` when
`adapters_[i_]` is indexed out of range, where the C++ has no defined
behaviour. -/
def static_aggregate_adapter.call {A : Type} (visit : slot_call A)
    (s : static_aggregate_adapter A) (nd : node) (ec : error_code) :
    Option (static_aggregate_adapter A × error_code) :=
  if nd.depth = 0 then
    if real_aggr_size nd ≠ s.adapters_.length then
      some (s, some error.incompatible_size)
    else
      some (s, ec)
  else
    match s.adapters_[s.i_]? with
    | none => none
    | some arg =>
      let r := visit arg nd ec
      some (({ s with adapters_ := s.adapters_.set s.i_ r.1 }).count nd, r.2)

/-- Feeding a node sequence to the adapter: one call of `operator()` per node,
in order, `ec` being handed from each call to the next and no call skipped. -/
def static_aggregate_adapter.feed {A : Type} (visit : slot_call A) :
    static_aggregate_adapter A → List node → error_code →
    Option (static_aggregate_adapter A × error_code)
  | s, [], ec => some (s, ec)
  | s, nd :: nds, ec =>
    match s.call visit nd ec with
    | none => none
    | some r => feed visit r.1 nds r.2

/-- A slot adapter that records every node it is called with and never touches
`ec`; it makes the nodes delivered to each slot observable. -/
def record : slot_call (List node) :=
  fun log nd ec => (log ++ [nd], ec)

/-- The standalone decode of one slot: the slot adapter alone is called with
every node of `nds`, in order. -/
def slot_feed {A : Type} (visit : slot_call A) (a : A) (nds : List node)
    (ec : error_code) : A × error_code :=
  nds.foldl (fun p nd => visit p.1 nd p.2) (a, ec)

/-- The reference decode of a tuple: slot `k` decodes the `k`-th node group on
its own (`slot_feed`), the groups being taken in order and `ec` handed from one
slot to the next. -/
def deliver {A : Type} (visit : slot_call A) :
    List A → List (List node) → error_code → List A × error_code
  | a :: as, g :: gs, ec =>
    let r := slot_feed visit a g ec
    let rest := deliver visit as gs r.2
    (r.1 :: rest.1, rest.2)
  | as, [], ec => (as, ec)
  | [], _ :: _, ec => ([], ec)

/-- The cursor `i_` and the counter `aggregate_size_` after each call of
`operator()` while a node sequence is fed, in call order. -/
def static_aggregate_adapter.feed_trace {A : Type} (visit : slot_call A) :
    static_aggregate_adapter A → List node → error_code → Option (List (Nat × Nat))
  | _, [], _ => some []
  | s, nd :: nds, ec =>
    match s.call visit nd ec with
    | none => none
    | some r =>
      (feed_trace visit r.1 nds r.2).map (fun t => (r.1.i_, r.1.aggregate_size_) :: t)

/-- The cursor rule in the words of the specification, on unbounded numbers.
The pair is the cursor `i` and the remaining counter `r`.  A node of depth 0
moves nothing; at depth 1 a non-aggregate advances `i` at once and an aggregate
sets `r` to its expanded count without advancing; deeper down each node
decrements `r` and `i` advances when `r` reaches zero. -/
def cursor_rule_step (p : Nat × Nat) (nd : node) : Nat × Nat :=
  if nd.depth = 0 then p
  else if nd.depth = 1 then
    if is_aggregate nd.data_type then
      (p.1, element_multiplicity nd.data_type * nd.aggregate_size)
    else (p.1 + 1, p.2)
  else if p.2 - 1 = 0 then (p.1 + 1, 0)
  else (p.1, p.2 - 1)

/-- The cursor and the counter the rule of the specification gives after each
node of a sequence. -/
def cursor_rule : Nat × Nat → List node → List (Nat × Nat)
  | _, [] => []
  | p, nd :: nds => cursor_rule_step p nd :: cursor_rule (cursor_rule_step p nd) nds

end detail
end adapter

namespace resp3

/-- A RESP3 value as a tree: what one response on the wire denotes.  A `leaf`
is a value without children, an `agg` an aggregate with its declared size and
its children. -/
inductive resp where
  | leaf (t : type) (value : String)
  | agg (t : type) (size : Nat) (children : List resp)

mutual
/-- The node sequence the parser emits for a value whose header is at depth
`d`: the header first, then the children at depth `d + 1`, in traversal
order.  A value without children reports `aggregate_size = 1`. -/
def resp.nodes : resp → Nat → List node
  | .leaf t v, d => [{ data_type := t, aggregate_size := 1, depth := d, value := v }]
  | .agg t n cs, d =>
    { data_type := t, aggregate_size := n, depth := d, value := "" } ::
      resp.nodes_list cs (d + 1)
/-- The node sequence of consecutive values at the same depth. -/
def resp.nodes_list : List resp → Nat → List node
  | [], _ => []
  | c :: cs, d => resp.nodes c d ++ resp.nodes_list cs d
end

mutual
/-- Well-formed value: a leaf has a non-aggregate kind; an aggregate has an
aggregate kind, a declared size that is a `std::size_t`, exactly
`element_multiplicity * size` children, and well-formed children. -/
def resp.well_formed : resp → Bool
  | .leaf t _ => !is_aggregate t
  | .agg t n cs =>
    is_aggregate t && decide (n < size_t_mod) &&
      decide (cs.length = element_multiplicity t * n) && resp.well_formed_list cs
/-- Every value of the list is well formed. -/
def resp.well_formed_list : List resp → Bool
  | [] => true
  | c :: cs => resp.well_formed c && resp.well_formed_list cs
end

/-- The value has no children: it is a single node of non-aggregate kind. -/
def resp.is_leaf : resp → Bool
  | .leaf t _ => !is_aggregate t
  | .agg _ _ _ => false

/-- A value of at most two levels: a single non-aggregate node, or a non-empty
aggregate all of whose `element_multiplicity * size` children are single
non-aggregate nodes, that number being a `std::size_t`. -/
def resp.two_level : resp → Bool
  | .leaf t _ => !is_aggregate t
  | .agg t n cs =>
    is_aggregate t && !cs.isEmpty &&
      decide (cs.length = element_multiplicity t * n) &&
      decide (element_multiplicity t * n < size_t_mod) && cs.all resp.is_leaf

/-- The number of children the header of a value announces: maps and
attributes count twice their declared size. -/
def resp.effective_size : resp → Nat
  | .leaf _ _ => 1
  | .agg t n _ => element_multiplicity t * n

/-- The children of a value. -/
def resp.children : resp → List resp
  | .leaf _ _ => []
  | .agg _ _ cs => cs

/-- The value is an aggregate. -/
def resp.is_agg : resp → Bool
  | .leaf _ _ => false
  | .agg _ _ _ => true

/-- The value of the counter `aggregate_size_` once the two-level values `cs`
have been consumed, when it was `c0` before: a value without children leaves
it alone and a non-empty aggregate leaves it at zero. -/
def counter_after : Nat → List resp → Nat
  | c0, [] => c0
  | c0, c :: cs => counter_after (if c.is_agg then 0 else c0) cs

end resp3

namespace redis

/-- Modelled from the spec: `aedis/redis/command.hpp` is not among the sources.
Commands are abstract tags; `connection.hpp` names only `Command::ping`. -/
inductive command where
  | ping
  | hello
  | quit
  | get
  | incr
  | mget
  | subscribe
  deriving DecidableEq, Repr

end redis

namespace generic

open resp3

/-- A call made on a `boost::asio::steady_timer`. -/
inductive timer_op where
  | cancel
  | cancel_one
  | expires_at (t : Int)
  deriving DecidableEq, Repr

/-- A `boost::asio::steady_timer` as far as `connection.hpp` uses it: the
expiry time, the number of outstanding `async_wait` operations and the calls
made on the timer so far, oldest first. -/
structure steady_timer where
  expiry : Int
  waiting : Nat
  calls : List timer_op
  deriving DecidableEq, Repr

/-- A timer as constructed from an executor. -/
def steady_timer.fresh : steady_timer :=
  { expiry := 0, waiting := 0, calls := [] }

/-- The call `cancel()`: every outstanding wait is aborted. -/
def steady_timer.cancel (t : steady_timer) : steady_timer :=
  { t with waiting := 0, calls := t.calls ++ [timer_op.cancel] }

/-- The call `cancel_one()`: one outstanding wait, if any, is aborted. -/
def steady_timer.cancel_one (t : steady_timer) : steady_timer :=
  { t with waiting := t.waiting - 1, calls := t.calls ++ [timer_op.cancel_one] }

/-- The call `expires_at(tp)`: the expiry is set and every outstanding wait is
aborted. -/
def steady_timer.expires_at (t : steady_timer) (tp : Int) : steady_timer :=
  { expiry := tp, waiting := 0, calls := t.calls ++ [timer_op.expires_at tp] }

/-- No wait is outstanding on the timer. -/
def steady_timer.cancelled (t : steady_timer) : Bool :=
  decide (t.waiting = 0)

/-- The expiry of the timer is not after `now`. -/
def steady_timer.expired (t : steady_timer) (now : Int) : Bool :=
  decide (t.expiry ≤ now)

/-- A `boost::asio::experimental::channel` as far as `connection.hpp` uses it:
the number of operations waiting on it and the number of `cancel()` calls. -/
structure channel where
  waiting : Nat
  cancels : Nat
  deriving DecidableEq, Repr

/-- A channel as constructed from an executor. -/
def channel.fresh : channel :=
  { waiting := 0, cancels := 0 }

/-- The call `cancel()`: every operation waiting on the channel is aborted. -/
def channel.cancel (ch : channel) : channel :=
  { waiting := 0, cancels := ch.cancels + 1 }

/-- The `AsyncReadWriteStream` behind `socket_`. -/
structure socket where
  is_open : Bool
  deriving DecidableEq, Repr

/-- The call `close()` on the stream. -/
def socket.close (_s : socket) : socket :=
  { is_open := false }

/-- The type `adapter_type`: a callback on a command, a node and `ec`.  `U` is
the state the callback owns or refers to. -/
abbrev adapter_type (Command U : Type) :=
  Command → node → error_code → U → U × error_code

/-- The type `adapter_type2`: the callback without the command. -/
abbrev adapter_type2 (U : Type) :=
  node → error_code → U → U × error_code

/-- The struct `req_info`; `req` is a pointer to the caller's request, `none`
being `nullptr`. -/
structure req_info (R : Type) where
  channel : channel
  req : Option R
  sent : Bool
  deriving DecidableEq, Repr

/-- The class `connection<Command, AsyncReadWriteStream>`: its IO objects apart
from the resolver, the adapter and the request queue (front of the queue first).
`socket_` is a `std::shared_ptr`, `none` being the null pointer.  `R` is the type
of request references. -/
structure connection (Command R U : Type) where
  socket_ : Option socket
  read_timer_ : steady_timer
  ping_timer_ : steady_timer
  write_timer_ : steady_timer
  wait_write_timer_ : steady_timer
  check_idle_timer_ : steady_timer
  read_ch_ : channel
  push_ch_ : channel
  adapter_ : adapter_type Command U
  reqs_ : List (req_info R)

/-- The first constructor `connection(ex, adapter, cfg)`. -/
def connection.make {Command R U : Type} (adapter : adapter_type Command U) :
    connection Command R U :=
  { socket_ := none
    read_timer_ := steady_timer.fresh
    ping_timer_ := steady_timer.fresh
    write_timer_ := steady_timer.fresh
    wait_write_timer_ := steady_timer.fresh
    check_idle_timer_ := steady_timer.fresh
    read_ch_ := channel.fresh
    push_ch_ := channel.fresh
    adapter_ := adapter
    reqs_ := [] }

/-- The lambda both the second constructor and `set_adapter(adapter_type2)`
wrap the user adapter in:
`if (cmd != Command::ping) adapter(nd, ec);`. -/
def ping_filter {Command U : Type} [DecidableEq Command] (ping : Command)
    (a : adapter_type2 U) : adapter_type Command U :=
  fun cmd nd ec u => if cmd ≠ ping then a nd ec u else (u, ec)

/-- The second constructor `connection(ex, a, cfg)`, which delegates to the
first one. -/
def connection.make2 {Command R U : Type} [DecidableEq Command] (ping : Command)
    (a : adapter_type2 U) : connection Command R U :=
  connection.make (ping_filter ping a)

/-- The member `set_adapter(adapter_type adapter)`. -/
def connection.set_adapter {Command R U : Type} (c : connection Command R U)
    (adapter : adapter_type Command U) : connection Command R U :=
  { c with adapter_ := adapter }

/-- The member `set_adapter(adapter_type2 a)`. -/
def connection.set_adapter2 {Command R U : Type} [DecidableEq Command]
    (ping : Command) (c : connection Command R U) (a : adapter_type2 U) :
    connection Command R U :=
  { c with adapter_ := ping_filter ping a }

/-- The member `select_adapter(cmd)`: the callback handed to the reader. -/
def connection.select_adapter {Command R U : Type} (c : connection Command R U)
    (cmd : Command) : adapter_type2 U :=
  fun nd ec u => c.adapter_ cmd nd ec u

/-- The member `prepare_back()`: the returned flag and the connection after the
call. -/
def connection.prepare_back {Command R U : Type} (c : connection Command R U) :
    Bool × connection Command R U :=
  let can_write := c.reqs_.isEmpty
  (can_write,
    { c with reqs_ := c.reqs_ ++ [{ channel := channel.fresh, req := none, sent := false }] })

/-- Assignment through `reqs_.back()`: the last element is replaced by its
image under `f`. -/
def modify_back {α : Type} (f : α → α) : List α → List α
  | [] => []
  | [x] => [f x]
  | x :: y :: l => x :: modify_back f (y :: l)

/-- The member `add_request(req)`. -/
def connection.add_request {Command R U : Type} (c : connection Command R U)
    (req : R) : connection Command R U :=
  let r := c.prepare_back
  let c1 := { r.2 with reqs_ := modify_back (fun s => { s with req := some req }) r.2.reqs_ }
  if r.1 then
    { c1 with wait_write_timer_ := c1.wait_write_timer_.cancel_one }
  else
    c1

/-- The member `close()`, called when the steady clock reads `now`.  The result
is `none` when `socket_` is null, where `socket_->close()` has no defined
behaviour. -/
def connection.close {Command R U : Type} (c : connection Command R U)
    (now : Int) : Option (connection Command R U) :=
  match c.socket_ with
  | none => none
  | some s =>
    some { c with
      socket_ := some s.close
      wait_write_timer_ := c.wait_write_timer_.expires_at now
      ping_timer_ := c.ping_timer_.cancel
      read_ch_ := c.read_ch_.cancel
      push_ch_ := c.push_ch_.cancel
      reqs_ := [] }

/-- An adapter that ignores what it is given. -/
def ignore_adapter {Command U : Type} : adapter_type Command U :=
  fun _ _ ec u => (u, ec)

/-- A connection in the middle of a run: the socket is open, a wait is
outstanding on every timer and on both channels, and the queue holds a sent
slot followed by an unsent one. -/
def busy_connection : connection redis.command Nat Unit :=
  { socket_ := some { is_open := true }
    read_timer_ := { expiry := 5000, waiting := 1, calls := [] }
    ping_timer_ := { expiry := 5000, waiting := 1, calls := [] }
    write_timer_ := { expiry := 5000, waiting := 1, calls := [] }
    wait_write_timer_ := { expiry := 5000, waiting := 1, calls := [] }
    check_idle_timer_ := { expiry := 10000, waiting := 1, calls := [] }
    read_ch_ := { waiting := 1, cancels := 0 }
    push_ch_ := { waiting := 1, cancels := 0 }
    adapter_ := ignore_adapter
    reqs_ := [{ channel := channel.fresh, req := some 1, sent := true },
              { channel := channel.fresh, req := some 2, sent := false }] }

/-- A user adapter that also logs the nodes it is invoked with. -/
def traced {U : Type} (a : adapter_type2 U) : adapter_type2 (U × List node) :=
  fun nd ec u =>
    let r := a nd ec u.1
    ((r.1, u.2 ++ [nd]), r.2)

/-- A command-aware user adapter that logs the command and the node of every
invocation and leaves `ec` alone. -/
def log_commands {Command : Type} : adapter_type Command (List (Command × node)) :=
  fun cmd nd ec u => (u ++ [(cmd, nd)], ec)

end generic

end aedis

/-! ## Lemmas on the tuple adapter -/

namespace aedis
namespace adapter
namespace detail

open resp3

theorem getElem?_mid {A : Type} (pre post : List A) (a : A) :
    (pre ++ a :: post)[pre.length]? = some a := by
  induction pre with
  | nil => simp
  | cons x pre ih => simpa using ih

theorem set_mid {A : Type} (pre post : List A) (a b : A) :
    (pre ++ a :: post).set pre.length b = pre ++ b :: post := by
  simp

/-- At depth zero `operator()` only compares sizes. -/
theorem call_depth_zero {A : Type} (visit : slot_call A)
    (s : static_aggregate_adapter A) (nd : node) (ec : error_code)
    (hd : nd.depth = 0) :
    s.call visit nd ec =
      some (s, if real_aggr_size nd ≠ s.adapters_.length
        then some error.incompatible_size else ec) := by
  unfold static_aggregate_adapter.call
  rw [if_pos hd]
  split <;> rfl

/-- Below depth zero `operator()` calls the adapter under the cursor and then
`count`. -/
theorem call_slot {A : Type} (visit : slot_call A) (pre post : List A) (a : A)
    (c : Nat) (nd : node) (ec : error_code) (hd : nd.depth ≠ 0) :
    static_aggregate_adapter.call visit
        { i_ := pre.length, aggregate_size_ := c, adapters_ := pre ++ a :: post } nd ec =
      some (static_aggregate_adapter.count
        { i_ := pre.length, aggregate_size_ := c,
          adapters_ := pre ++ (visit a nd ec).1 :: post } nd, (visit a nd ec).2) := by
  unfold static_aggregate_adapter.call
  simp only [if_neg hd, getElem?_mid, set_mid]

theorem feed_append {A : Type} (visit : slot_call A) (xs ys : List node) :
    ∀ (s : static_aggregate_adapter A) (ec : error_code),
      s.feed visit (xs ++ ys) ec =
        (s.feed visit xs ec).bind (fun r => r.1.feed visit ys r.2) := by
  induction xs with
  | nil => intro s ec; simp [static_aggregate_adapter.feed]
  | cons x xs ih =>
    intro s ec
    simp only [List.cons_append, static_aggregate_adapter.feed]
    cases h : s.call visit x ec with
    | none => simp
    | some r => simpa using ih r.1 r.2

theorem slot_feed_cons {A : Type} (visit : slot_call A) (a : A) (nd : node)
    (nds : List node) (ec : error_code) :
    slot_feed visit a (nd :: nds) ec =
      slot_feed visit (visit a nd ec).1 nds (visit a nd ec).2 := by
  simp [slot_feed]

/-- The elements of a depth-one aggregate: each goes to the slot under the
cursor and decrements the counter; the cursor advances with the last one. -/
theorem feed_elements {A : Type} (visit : slot_call A) (pre post : List A)
    (hpre : pre.length + 1 < size_t_mod) :
    ∀ (es : List node) (a : A) (c : Nat) (ec : error_code),
      (∀ nd ∈ es, 2 ≤ nd.depth) → es.length = c → 0 < c → c < size_t_mod →
      static_aggregate_adapter.feed visit
          { i_ := pre.length, aggregate_size_ := c, adapters_ := pre ++ a :: post } es ec =
        some ({ i_ := pre.length + 1, aggregate_size_ := 0,
                adapters_ := pre ++ (slot_feed visit a es ec).1 :: post },
              (slot_feed visit a es ec).2) := by
  intro es
  induction es with
  | nil => intro a c ec _ hlen hpos _; simp at hlen; omega
  | cons nd es ih =>
    intro a c ec hdepth hlen hpos hlt
    have hnd : 2 ≤ nd.depth := hdepth nd (by simp)
    have h0 : nd.depth ≠ 0 := by omega
    have h1 : nd.depth ≠ 1 := by omega
    have hr : (c + size_t_mod - 1) % size_t_mod = c - 1 := by
      have : c + size_t_mod - 1 = (c - 1) + size_t_mod := by omega
      rw [this, Nat.add_mod_right]
      exact Nat.mod_eq_of_lt (by omega)
    simp only [static_aggregate_adapter.feed, call_slot visit pre post a c nd ec h0,
      slot_feed_cons]
    simp only [static_aggregate_adapter.count, if_neg h1, hr]
    cases es with
    | nil =>
      have hc : c = 1 := by simpa using hlen.symm
      subst hc
      simp [static_aggregate_adapter.feed, slot_feed, Nat.mod_eq_of_lt hpre]
    | cons e es' =>
      have hc : c - 1 = (e :: es').length := by simp at hlen ⊢; omega
      have hne : c - 1 ≠ 0 := by rw [hc]; simp
      simp only [if_neg hne]
      exact ih _ _ _ (fun x hx => hdepth x (by simp [hx])) hc.symm (by omega) (by omega)

/-- The nodes of values without children: one node each, all at the depth
asked for. -/
theorem nodes_list_leaves (d : Nat) :
    ∀ (cs : List resp), cs.all resp.is_leaf = true →
      (resp.nodes_list cs d).length = cs.length ∧
        ∀ nd ∈ resp.nodes_list cs d, nd.depth = d := by
  intro cs
  induction cs with
  | nil => intro _; simp [resp.nodes_list]
  | cons c cs ih =>
    intro h
    simp only [List.all_cons, Bool.and_eq_true] at h
    obtain ⟨hl, hn⟩ := ih h.2
    cases c with
    | leaf t v =>
      simp only [resp.nodes_list, resp.nodes, List.singleton_append, List.length_cons,
        List.mem_cons]
      refine ⟨by omega, ?_⟩
      rintro nd (rfl | hmem)
      · rfl
      · exact hn nd hmem
    | agg t n ds => simp [resp.is_leaf] at h

theorem nodes_list_eq_flatten (d : Nat) (cs : List resp) :
    resp.nodes_list cs d = (cs.map (fun c => c.nodes d)).flatten := by
  induction cs with
  | nil => simp [resp.nodes_list]
  | cons c cs ih => simp [resp.nodes_list, ih]

/-- One two-level child: all of its nodes go to the slot under the cursor, and
the cursor has advanced by one when its last node has been consumed. -/
theorem feed_child {A : Type} (visit : slot_call A) (pre post : List A) (a : A)
    (c0 : Nat) (ec : error_code) (c : resp) (hpre : pre.length + 1 < size_t_mod)
    (h2 : c.two_level = true) :
    static_aggregate_adapter.feed visit
        { i_ := pre.length, aggregate_size_ := c0, adapters_ := pre ++ a :: post }
        (c.nodes 1) ec =
      some ({ i_ := pre.length + 1, aggregate_size_ := if c.is_agg then 0 else c0,
              adapters_ := pre ++ (slot_feed visit a (c.nodes 1) ec).1 :: post },
            (slot_feed visit a (c.nodes 1) ec).2) := by
  cases c with
  | leaf t v =>
    have ht : is_aggregate t = false := by simpa [resp.two_level] using h2
    simp only [resp.nodes, static_aggregate_adapter.feed]
    rw [call_slot visit pre post a c0 _ ec (by simp)]
    simp [static_aggregate_adapter.count, ht, slot_feed, resp.is_agg,
      Nat.mod_eq_of_lt hpre]
  | agg t n cs =>
    simp only [resp.two_level, Bool.and_eq_true, decide_eq_true_eq, Bool.not_eq_true',
      List.isEmpty_eq_false] at h2
    obtain ⟨⟨⟨⟨ht, hne⟩, hlen⟩, hlt⟩, hleaf⟩ := h2
    obtain ⟨hl, hdep⟩ := nodes_list_leaves 2 cs hleaf
    have hpos : 0 < cs.length := List.length_pos.mpr hne
    simp only [resp.nodes, static_aggregate_adapter.feed]
    rw [call_slot visit pre post a c0 _ ec (by simp)]
    simp only [static_aggregate_adapter.count, ht, if_true, Nat.mod_eq_of_lt hlt,
      slot_feed_cons, resp.is_agg]
    exact feed_elements visit pre post hpre _ _ _ _
      (fun nd hnd => by rw [hdep nd hnd]) (by rw [hl, hlen]) (by omega) hlt

/-- Consecutive two-level children: child `k` goes to the `k`-th slot after the
cursor, which ends behind the last slot used. -/
theorem feed_children {A : Type} (visit : slot_call A) :
    ∀ (cs : List resp) (pre rest : List A) (c0 : Nat) (ec : error_code),
      (∀ c ∈ cs, c.two_level = true) → cs.length ≤ rest.length →
      pre.length + rest.length < size_t_mod →
      static_aggregate_adapter.feed visit
          { i_ := pre.length, aggregate_size_ := c0, adapters_ := pre ++ rest }
          (resp.nodes_list cs 1) ec =
        some ({ i_ := pre.length + cs.length, aggregate_size_ := counter_after c0 cs,
                adapters_ := pre ++ (deliver visit rest (cs.map (fun c => c.nodes 1)) ec).1 },
              (deliver visit rest (cs.map (fun c => c.nodes 1)) ec).2) := by
  intro cs
  induction cs with
  | nil =>
    intro pre rest c0 ec _ _ _
    cases rest <;> simp [resp.nodes_list, static_aggregate_adapter.feed, deliver, counter_after]
  | cons c cs ih =>
    intro pre rest c0 ec h2 hlen hlt
    cases rest with
    | nil => simp at hlen
    | cons a post =>
      simp only [List.length_cons] at hlen hlt
      have hc : c.two_level = true := h2 c (by simp)
      rw [resp.nodes_list, feed_append, feed_child visit pre post a c0 ec c (by omega) hc]
      simp only [Option.some_bind, List.map_cons, deliver, counter_after]
      have key := ih (pre ++ [(slot_feed visit a (c.nodes 1) ec).1]) post
        (if c.is_agg then 0 else c0) (slot_feed visit a (c.nodes 1) ec).2
        (fun x hx => h2 x (by simp [hx])) (by omega) (by simp; omega)
      simp only [List.length_append, List.length_singleton, List.append_assoc,
        List.singleton_append] at key
      rw [key]
      simp only [List.length_cons]
      congr 3
      omega

theorem slot_feed_record (nds : List node) :
    ∀ (log : List node) (ec : error_code),
      slot_feed record log nds ec = (log ++ nds, ec) := by
  induction nds with
  | nil => intro log ec; simp [slot_feed]
  | cons nd nds ih =>
    intro log ec
    rw [slot_feed_cons]
    simp [record, ih]

/-- With recording slot adapters that start empty, each slot ends up holding
exactly its own node group, and `ec` is untouched. -/
theorem deliver_record (ec : error_code) :
    ∀ (gs : List (List node)),
      deliver record (List.replicate gs.length []) gs ec = (gs, ec) := by
  intro gs
  induction gs with
  | nil => simp [deliver]
  | cons g gs ih =>
    simp only [List.length_cons, List.replicate_succ, deliver, slot_feed_record,
      List.nil_append, ih]

theorem is_leaf_two_level (c : resp) (h : c.is_leaf = true) : c.two_level = true := by
  cases c with
  | leaf t v => simpa [resp.is_leaf, resp.two_level] using h
  | agg t n cs => simp [resp.is_leaf] at h

theorem counter_after_leaves :
    ∀ (cs : List resp) (c0 : Nat), cs.all resp.is_leaf = true → counter_after c0 cs = c0 := by
  intro cs
  induction cs with
  | nil => intro c0 _; rfl
  | cons c cs ih =>
    intro c0 h
    simp only [List.all_cons, Bool.and_eq_true] at h
    cases c with
    | leaf t v => simpa [counter_after, resp.is_agg] using ih c0 h.2
    | agg t n ds => simp [resp.is_leaf] at h

/-- One top-level aggregate whose children are two-level values and which
passes the size check: the run of the adapter is the reference decode. -/
theorem feed_response {A : Type} (visit : slot_call A) (adapters : List A)
    (t : type) (size : Nat) (cs : List resp) (ec : error_code)
    (hlt : adapters.length < size_t_mod)
    (hlen : cs.length = element_multiplicity t * size)
    (hsize : element_multiplicity t * size = adapters.length)
    (h2 : ∀ c ∈ cs, c.two_level = true) :
    (static_aggregate_adapter.init adapters).feed visit ((resp.agg t size cs).nodes 0) ec =
      some ({ i_ := adapters.length, aggregate_size_ := counter_after 0 cs,
              adapters_ := (deliver visit adapters (cs.map (fun c => c.nodes 1)) ec).1 },
            (deliver visit adapters (cs.map (fun c => c.nodes 1)) ec).2) := by
  have hreal : real_aggr_size
      { data_type := t, aggregate_size := size, depth := 0, value := "" } =
        adapters.length := by
    simp only [real_aggr_size]
    rw [Nat.mul_comm, hsize]
    exact Nat.mod_eq_of_lt hlt
  simp only [resp.nodes, static_aggregate_adapter.feed]
  rw [call_depth_zero visit _ _ ec rfl]
  simp only [static_aggregate_adapter.init, hreal, ne_eq, not_true_eq_false, if_false]
  have key := feed_children visit cs [] adapters 0 ec h2 (by omega) (by simpa using hlt)
  simp only [List.length_nil, List.nil_append, Nat.zero_add] at key
  rw [key, hlen, hsize]

theorem feed_trace_append {A : Type} (visit : slot_call A) (xs ys : List node) :
    ∀ (s : static_aggregate_adapter A) (ec : error_code),
      s.feed_trace visit (xs ++ ys) ec =
        (s.feed_trace visit xs ec).bind (fun t =>
          (s.feed visit xs ec).bind (fun r =>
            (r.1.feed_trace visit ys r.2).map (fun u => t ++ u))) := by
  induction xs with
  | nil =>
    intro s ec
    simp [static_aggregate_adapter.feed_trace, static_aggregate_adapter.feed]
  | cons x xs ih =>
    intro s ec
    simp only [List.cons_append, static_aggregate_adapter.feed_trace,
      static_aggregate_adapter.feed]
    cases h : s.call visit x ec with
    | none => simp
    | some r =>
      show (r.1.feed_trace visit (xs ++ ys) r.2).map _ =
        ((r.1.feed_trace visit xs r.2).map _).bind _
      rw [ih r.1 r.2]
      cases h1 : r.1.feed_trace visit xs r.2 with
      | none => simp
      | some t =>
        cases h2 : r.1.feed visit xs r.2 with
        | none => simp [static_aggregate_adapter.feed, h, h2]
        | some r2 =>
          cases h3 : r2.1.feed_trace visit ys r2.2 <;>
            simp [static_aggregate_adapter.feed, h, h2, h3]

theorem cursor_rule_append (xs ys : List node) :
    ∀ (p : Nat × Nat),
      cursor_rule p (xs ++ ys) =
        cursor_rule p xs ++ cursor_rule (xs.foldl cursor_rule_step p) ys := by
  induction xs with
  | nil => intro p; simp [cursor_rule]
  | cons x xs ih => intro p; simp [cursor_rule, ih]

/-- The elements of a depth-one aggregate: the cursor and the counter follow
the rule of the specification at every node. -/
theorem feed_trace_elements {A : Type} (visit : slot_call A) (pre post : List A)
    (hpre : pre.length + 1 < size_t_mod) :
    ∀ (es : List node) (a : A) (c : Nat) (ec : error_code),
      (∀ nd ∈ es, 2 ≤ nd.depth) → es.length = c → 0 < c → c < size_t_mod →
      static_aggregate_adapter.feed_trace visit
          { i_ := pre.length, aggregate_size_ := c, adapters_ := pre ++ a :: post } es ec =
        some (cursor_rule (pre.length, c) es) ∧
      es.foldl cursor_rule_step (pre.length, c) = (pre.length + 1, 0) := by
  intro es
  induction es with
  | nil => intro a c ec _ hlen hpos _; simp at hlen; omega
  | cons nd es ih =>
    intro a c ec hdepth hlen hpos hlt
    have hnd : 2 ≤ nd.depth := hdepth nd (by simp)
    have h0 : nd.depth ≠ 0 := by omega
    have h1 : nd.depth ≠ 1 := by omega
    have hr : (c + size_t_mod - 1) % size_t_mod = c - 1 := by
      have : c + size_t_mod - 1 = (c - 1) + size_t_mod := by omega
      rw [this, Nat.add_mod_right]
      exact Nat.mod_eq_of_lt (by omega)
    simp only [static_aggregate_adapter.feed_trace, call_slot visit pre post a c nd ec h0,
      cursor_rule, List.foldl_cons]
    simp only [static_aggregate_adapter.count, cursor_rule_step, if_neg h0, if_neg h1, hr]
    cases es with
    | nil =>
      have hc : c = 1 := by simpa using hlen.symm
      subst hc
      simp [static_aggregate_adapter.feed_trace, cursor_rule, Nat.mod_eq_of_lt hpre]
    | cons e es' =>
      have hc : c - 1 = (e :: es').length := by simp at hlen ⊢; omega
      have hne : c - 1 ≠ 0 := by rw [hc]; simp
      simp only [if_neg hne]
      obtain ⟨ht, hf⟩ := ih (visit a nd ec).1 (c - 1) (visit a nd ec).2
        (fun x hx => hdepth x (by simp [hx])) hc.symm (by omega) (by omega)
      rw [ht]
      exact ⟨by simp, hf⟩

/-- One two-level child: the cursor and the counter follow the rule of the
specification at every node of the child. -/
theorem feed_trace_child {A : Type} (visit : slot_call A) (pre post : List A) (a : A)
    (c0 : Nat) (ec : error_code) (c : resp) (hpre : pre.length + 1 < size_t_mod)
    (h2 : c.two_level = true) :
    static_aggregate_adapter.feed_trace visit
        { i_ := pre.length, aggregate_size_ := c0, adapters_ := pre ++ a :: post }
        (c.nodes 1) ec =
      some (cursor_rule (pre.length, c0) (c.nodes 1)) ∧
    (c.nodes 1).foldl cursor_rule_step (pre.length, c0) =
      (pre.length + 1, if c.is_agg then 0 else c0) := by
  cases c with
  | leaf t v =>
    have ht : is_aggregate t = false := by simpa [resp.two_level] using h2
    simp only [resp.nodes, static_aggregate_adapter.feed_trace]
    rw [call_slot visit pre post a c0 _ ec (by simp)]
    simp [static_aggregate_adapter.count, ht, resp.is_agg, cursor_rule, cursor_rule_step,
      static_aggregate_adapter.feed_trace, Nat.mod_eq_of_lt hpre]
  | agg t n cs =>
    simp only [resp.two_level, Bool.and_eq_true, decide_eq_true_eq, Bool.not_eq_true',
      List.isEmpty_eq_false] at h2
    obtain ⟨⟨⟨⟨ht, hne⟩, hlen⟩, hlt⟩, hleaf⟩ := h2
    obtain ⟨hl, hdep⟩ := nodes_list_leaves 2 cs hleaf
    have hpos : 0 < cs.length := List.length_pos.mpr hne
    simp only [resp.nodes, static_aggregate_adapter.feed_trace, cursor_rule, List.foldl_cons]
    rw [call_slot visit pre post a c0 _ ec (by simp)]
    simp only [static_aggregate_adapter.count, cursor_rule_step, ht, if_true,
      Nat.mod_eq_of_lt hlt, resp.is_agg]
    obtain ⟨htr, hf⟩ := feed_trace_elements visit pre post hpre (resp.nodes_list cs 2)
      (visit a { data_type := t, aggregate_size := n, depth := 1, value := "" } ec).1
      (element_multiplicity t * n)
      (visit a { data_type := t, aggregate_size := n, depth := 1, value := "" } ec).2
      (fun nd hnd => by rw [hdep nd hnd]) (by rw [hl, hlen]) (by omega) hlt
    simp only [one_ne_zero, if_false]
    rw [htr]
    exact ⟨by simp, hf⟩

/-- Consecutive two-level children: the cursor and the counter follow the rule
of the specification at every node. -/
theorem feed_trace_children {A : Type} (visit : slot_call A) :
    ∀ (cs : List resp) (pre rest : List A) (c0 : Nat) (ec : error_code),
      (∀ c ∈ cs, c.two_level = true) → cs.length ≤ rest.length →
      pre.length + rest.length < size_t_mod →
      static_aggregate_adapter.feed_trace visit
          { i_ := pre.length, aggregate_size_ := c0, adapters_ := pre ++ rest }
          (resp.nodes_list cs 1) ec =
        some (cursor_rule (pre.length, c0) (resp.nodes_list cs 1)) := by
  intro cs
  induction cs with
  | nil =>
    intro pre rest c0 ec _ _ _
    simp [resp.nodes_list, static_aggregate_adapter.feed_trace, cursor_rule]
  | cons c cs ih =>
    intro pre rest c0 ec h2 hlen hlt
    cases rest with
    | nil => simp at hlen
    | cons a post =>
      simp only [List.length_cons] at hlen hlt
      have hc : c.two_level = true := h2 c (by simp)
      obtain ⟨htr, hf⟩ := feed_trace_child visit pre post a c0 ec c (by omega) hc
      rw [resp.nodes_list, feed_trace_append, cursor_rule_append, htr,
        feed_child visit pre post a c0 ec c (by omega) hc, hf]
      simp only [Option.some_bind]
      have key := ih (pre ++ [(slot_feed visit a (c.nodes 1) ec).1]) post
        (if c.is_agg then 0 else c0) (slot_feed visit a (c.nodes 1) ec).2
        (fun x hx => h2 x (by simp [hx])) (by omega) (by simp; omega)
      simp only [List.length_append, List.length_singleton, List.append_assoc,
        List.singleton_append] at key
      rw [key]
      simp

/-- One top-level aggregate whose children are two-level values and which
passes the size check: the cursor and the counter follow the rule of the
specification from the header to the last node. -/
theorem feed_trace_response {A : Type} (visit : slot_call A) (adapters : List A)
    (t : type) (size : Nat) (cs : List resp) (ec : error_code)
    (hlt : adapters.length < size_t_mod)
    (hlen : cs.length = element_multiplicity t * size)
    (hsize : element_multiplicity t * size = adapters.length)
    (h2 : ∀ c ∈ cs, c.two_level = true) :
    (static_aggregate_adapter.init adapters).feed_trace visit
        ((resp.agg t size cs).nodes 0) ec =
      some (cursor_rule (0, 0) ((resp.agg t size cs).nodes 0)) := by
  simp only [resp.nodes, static_aggregate_adapter.feed_trace, cursor_rule]
  rw [call_depth_zero visit _ _ ec rfl]
  have key := feed_trace_children visit cs [] adapters 0
    (if real_aggr_size { data_type := t, aggregate_size := size, depth := 0, value := "" } ≠
        (static_aggregate_adapter.init adapters).adapters_.length
      then some error.incompatible_size else ec) h2 (by omega) (by simpa using hlt)
  simp only [List.length_nil, List.nil_append] at key
  simp only [static_aggregate_adapter.init, cursor_rule_step, if_true] at key ⊢
  rw [key]
  simp

/-! ## The tuple adapter: size check and slot routing -/

/-- C1. At depth zero `operator()` only checks the size: the call returns the
adapter unchanged (cursor `i_`, counter `aggregate_size_` and every slot adapter,
whatever the slot adapters would do with a node) and the error is
`incompatible_size` exactly when `real_aggr_size`, the `std::size_t` product
`nd.aggregate_size * element_multiplicity(nd.data_type)`, differs from the tuple
arity; otherwise `ec` is left as it was.  The multiplicity is two for `map` and
`attribute` and one for every other kind, and the product is the plain product
whenever that fits a `std::size_t`. -/
theorem tuple_size_check {A : Type} (visit : slot_call A)
    (s : static_aggregate_adapter A) (nd : node) (ec : error_code)
    (hd : nd.depth = 0) :
    (s.call visit nd ec =
        some (s, if real_aggr_size nd ≠ s.adapters_.length
          then some error.incompatible_size else ec)) ∧
      (ec ≠ some error.incompatible_size →
        ((s.call visit nd ec).map Prod.snd = some (some error.incompatible_size) ↔
          (nd.aggregate_size * element_multiplicity nd.data_type) % 2 ^ 64 ≠
            s.adapters_.length)) ∧
      (ec ≠ some error.incompatible_size →
        nd.aggregate_size * element_multiplicity nd.data_type < 2 ^ 64 →
        ((s.call visit nd ec).map Prod.snd = some (some error.incompatible_size) ↔
          nd.aggregate_size * element_multiplicity nd.data_type ≠ s.adapters_.length)) ∧
      (s.call visit nd ec).map Prod.fst = some s ∧
      element_multiplicity nd.data_type =
        (if nd.data_type = type.map ∨ nd.data_type = type.attribute then 2 else 1) := by
  have hcall := call_depth_zero visit s nd ec hd
  have hiff : ec ≠ some error.incompatible_size →
      ((s.call visit nd ec).map Prod.snd = some (some error.incompatible_size) ↔
        real_aggr_size nd ≠ s.adapters_.length) := by
    intro hec
    rw [hcall]
    by_cases h : real_aggr_size nd = s.adapters_.length
    · simp only [h, ne_eq, not_true_eq_false, if_false, Option.map_some', Option.some.injEq,
        iff_false]
      exact hec
    · simp [h]
  refine ⟨hcall, hiff, ?_, ?_, ?_⟩
  · intro hec hfit
    have := hiff hec
    rwa [real_aggr_size, size_t_mod, Nat.mod_eq_of_lt hfit] at this
  · rw [hcall]; rfl
  · cases nd.data_type <;> simp [element_multiplicity]

/-- The destination `<integer, integer>` and the header of `*3 :1 :2 :3`: the
call gives `incompatible_size` and hands the node to no slot. -/
theorem tuple_size_check_witness :
    (({ data_type := type.array, aggregate_size := 3, depth := 0, value := "" } : node).depth = 0) ∧
      (static_aggregate_adapter.init [([] : List node), []]).call record
          { data_type := type.array, aggregate_size := 3, depth := 0, value := "" } none =
        some (static_aggregate_adapter.init [[], []], some error.incompatible_size) :=
  ⟨rfl, (tuple_size_check record (static_aggregate_adapter.init [([] : List node), []])
    { data_type := type.array, aggregate_size := 3, depth := 0, value := "" } none rfl).1⟩

/-- C2, as stated, fails.  The two pipelined top-level responses `$3 foo` and
`:42` reach the tuple adapter of a two-slot destination as two nodes of depth
zero: both calls take the size-check branch, the error is `incompatible_size`
(already after the first call) and neither slot adapter is handed a node. -/
theorem pipelined_scalars_not_decoded :
    (static_aggregate_adapter.init [([] : List node), []]).feed record
        [{ data_type := type.blob_string, aggregate_size := 1, depth := 0, value := "foo" },
         { data_type := type.number, aggregate_size := 1, depth := 0, value := "42" }] none =
      some (static_aggregate_adapter.init [[], []], some error.incompatible_size) ∧
    (static_aggregate_adapter.init [([] : List node), []]).call record
        { data_type := type.blob_string, aggregate_size := 1, depth := 0, value := "foo" } none =
      some (static_aggregate_adapter.init [[], []], some error.incompatible_size) ∧
    ¬ ∃ s', (static_aggregate_adapter.init [([] : List node), []]).feed record
        [{ data_type := type.blob_string, aggregate_size := 1, depth := 0, value := "foo" },
         { data_type := type.number, aggregate_size := 1, depth := 0, value := "42" }] none =
      some (s', none) := by
  have h : (static_aggregate_adapter.init [([] : List node), []]).feed record
        [{ data_type := type.blob_string, aggregate_size := 1, depth := 0, value := "foo" },
         { data_type := type.number, aggregate_size := 1, depth := 0, value := "42" }] none =
      some (static_aggregate_adapter.init [[], []], some error.incompatible_size) := by
    decide
  refine ⟨h, by decide, ?_⟩
  rintro ⟨s', hs⟩
  rw [h] at hs
  simp at hs

/-- C2, amended.  A tuple destination decodes the children of one top-level
aggregate: when the response is a well-formed aggregate whose effective child
count is the tuple arity and whose children are all values without children,
the run of the adapter is the reference decode in which slot `k` is called with
the `k`-th child and nothing else, the cursor ends at the arity, and the error
is the one the slot adapters leave.  Observed with recording slot adapters:
slot `k` holds exactly the node of child `k` and `ec` is untouched. -/
theorem tuple_decodes_aggregate_children {A : Type} (visit : slot_call A)
    (adapters : List A) (t : type) (size : Nat) (cs : List resp) (ec : error_code)
    (hlt : adapters.length < 2 ^ 64)
    (hwf : (resp.agg t size cs).well_formed = true)
    (hsize : (resp.agg t size cs).effective_size = adapters.length)
    (hleaf : cs.all resp.is_leaf = true) :
    (static_aggregate_adapter.init adapters).feed visit ((resp.agg t size cs).nodes 0) ec =
        some ({ i_ := adapters.length, aggregate_size_ := 0,
                adapters_ := (deliver visit adapters (cs.map (fun c => c.nodes 1)) ec).1 },
              (deliver visit adapters (cs.map (fun c => c.nodes 1)) ec).2) ∧
      (static_aggregate_adapter.init (List.replicate adapters.length [])).feed record
          ((resp.agg t size cs).nodes 0) ec =
        some ({ i_ := adapters.length, aggregate_size_ := 0,
                adapters_ := cs.map (fun c => c.nodes 1) }, ec) ∧
      ∀ c ∈ cs, (c.nodes 1).length = 1 := by
  simp only [resp.well_formed, Bool.and_eq_true, decide_eq_true_eq] at hwf
  obtain ⟨⟨⟨_, _⟩, hlen⟩, _⟩ := hwf
  simp only [resp.effective_size] at hsize
  have h2 : ∀ c ∈ cs, c.two_level = true := fun c hc =>
    is_leaf_two_level c (List.all_eq_true.mp hleaf c hc)
  have hn : cs.length = adapters.length := by rw [hlen, hsize]
  refine ⟨?_, ?_, ?_⟩
  · rw [feed_response visit adapters t size cs ec hlt hlen hsize h2,
      counter_after_leaves cs 0 hleaf]
  · have hrec := feed_response record (List.replicate adapters.length []) t size cs ec
      (by simpa using hlt) hlen (by simpa using hsize) h2
    have hd := deliver_record ec (cs.map (fun c => c.nodes 1))
    rw [List.length_map, hn] at hd
    rw [hrec, hd, counter_after_leaves cs 0 hleaf]
    simp
  · intro c hc
    have := List.all_eq_true.mp hleaf c hc
    cases c with
    | leaf t v => simp [resp.nodes]
    | agg t n ds => simp [resp.is_leaf] at this

/-- The response `*2 $3 foo :42` and a two-slot destination: slot 0 receives
the node of `foo`, slot 1 the node of `42`, and there is no error. -/
theorem tuple_decodes_aggregate_children_witness :
    (static_aggregate_adapter.init [([] : List node), []]).feed record
        ((resp.agg type.array 2
          [resp.leaf type.blob_string "foo", resp.leaf type.number "42"]).nodes 0) none =
      some ({ i_ := 2, aggregate_size_ := 0,
              adapters_ :=
                [[{ data_type := type.blob_string, aggregate_size := 1, depth := 1, value := "foo" }],
                 [{ data_type := type.number, aggregate_size := 1, depth := 1, value := "42" }]] },
            none) :=
  (tuple_decodes_aggregate_children record [([] : List node), []] type.array 2
    [resp.leaf type.blob_string "foo", resp.leaf type.number "42"] none
    (by decide) (by decide) (by decide) (by decide)).2.1

/-- C3, as stated, fails.  With two slots, the response `*2 *0 :1` (an empty
aggregate followed by a number) puts the number into slot 0 and nothing into
slot 1, and the response `*2 *1 *1 :7 :8` (a nested aggregate followed by a
number) puts the innermost number `7` into slot 1: in neither case does slot
`k` hold exactly the nodes of child `k`. -/
theorem tuple_slot_decode_fails :
    (resp.agg type.array 2 [resp.agg type.array 0 [], resp.leaf type.number "1"]).well_formed
        = true ∧
      (static_aggregate_adapter.init [([] : List node), []]).feed record
          ((resp.agg type.array 2
            [resp.agg type.array 0 [], resp.leaf type.number "1"]).nodes 0) none =
        some ({ i_ := 1, aggregate_size_ := 0,
                adapters_ :=
                  [[{ data_type := type.array, aggregate_size := 0, depth := 1, value := "" },
                    { data_type := type.number, aggregate_size := 1, depth := 1, value := "1" }],
                   []] }, none) ∧
      (resp.agg type.array 2
          [resp.agg type.array 1 [resp.agg type.array 1 [resp.leaf type.number "7"]],
           resp.leaf type.number "8"]).well_formed = true ∧
      (static_aggregate_adapter.init [([] : List node), []]).feed record
          ((resp.agg type.array 2
            [resp.agg type.array 1 [resp.agg type.array 1 [resp.leaf type.number "7"]],
             resp.leaf type.number "8"]).nodes 0) none =
        some ({ i_ := 2, aggregate_size_ := 2 ^ 64 - 1,
                adapters_ :=
                  [[{ data_type := type.array, aggregate_size := 1, depth := 1, value := "" },
                    { data_type := type.array, aggregate_size := 1, depth := 2, value := "" }],
                   [{ data_type := type.number, aggregate_size := 1, depth := 3, value := "7" },
                    { data_type := type.number, aggregate_size := 1, depth := 1, value := "8" }]] },
              none) ∧
      ¬ (∀ (r : resp), r.well_formed = true → r.is_agg = true → r.effective_size = 2 →
          ∃ s' ec', (static_aggregate_adapter.init [([] : List node), []]).feed record
              (r.nodes 0) none = some (s', ec') ∧
            s'.adapters_ = r.children.map (fun c => c.nodes 1)) := by
  refine ⟨by decide, by decide, by decide, by decide, ?_⟩
  intro h
  obtain ⟨s', ec', hfeed, hslots⟩ :=
    h (resp.agg type.array 2 [resp.agg type.array 0 [], resp.leaf type.number "1"])
      (by decide) (by decide) (by decide)
  have hval : (static_aggregate_adapter.init [([] : List node), []]).feed record
      ((resp.agg type.array 2
        [resp.agg type.array 0 [], resp.leaf type.number "1"]).nodes 0) none =
      some ({ i_ := 1, aggregate_size_ := 0,
              adapters_ :=
                [[{ data_type := type.array, aggregate_size := 0, depth := 1, value := "" },
                  { data_type := type.number, aggregate_size := 1, depth := 1, value := "1" }],
                 []] }, none) := by decide
  rw [hval] at hfeed
  simp only [Option.some.injEq, Prod.mk.injEq] at hfeed
  rw [← hfeed.1] at hslots
  revert hslots
  decide

/-- C3, amended.  For a well-formed top-level aggregate whose effective child
count is the tuple arity and whose children are values of at most two levels (a
value without children, or a non-empty aggregate of values without children),
the run of the adapter is the reference decode: slot `k` is called with the
nodes of the `k`-th child, in traversal order, and with nothing else, and the
cursor ends at the arity.  Observed with recording slot adapters: slot `k` holds
exactly the node sequence of child `k`. -/
theorem tuple_slot_decode_two_level {A : Type} (visit : slot_call A)
    (adapters : List A) (t : type) (size : Nat) (cs : List resp) (ec : error_code)
    (hlt : adapters.length < 2 ^ 64)
    (hwf : (resp.agg t size cs).well_formed = true)
    (hsize : (resp.agg t size cs).effective_size = adapters.length)
    (h2 : ∀ c ∈ cs, c.two_level = true) :
    (static_aggregate_adapter.init adapters).feed visit ((resp.agg t size cs).nodes 0) ec =
        some ({ i_ := adapters.length, aggregate_size_ := counter_after 0 cs,
                adapters_ := (deliver visit adapters (cs.map (fun c => c.nodes 1)) ec).1 },
              (deliver visit adapters (cs.map (fun c => c.nodes 1)) ec).2) ∧
      (static_aggregate_adapter.init (List.replicate adapters.length [])).feed record
          ((resp.agg t size cs).nodes 0) ec =
        some ({ i_ := adapters.length, aggregate_size_ := counter_after 0 cs,
                adapters_ := cs.map (fun c => c.nodes 1) }, ec) ∧
      (resp.agg t size cs).nodes 0 =
        { data_type := t, aggregate_size := size, depth := 0, value := "" } ::
          (cs.map (fun c => c.nodes 1)).flatten := by
  simp only [resp.well_formed, Bool.and_eq_true, decide_eq_true_eq] at hwf
  obtain ⟨⟨⟨_, _⟩, hlen⟩, _⟩ := hwf
  simp only [resp.effective_size] at hsize
  have hcs : cs.length = adapters.length := by rw [hlen, hsize]
  refine ⟨feed_response visit adapters t size cs ec hlt hlen hsize h2, ?_, ?_⟩
  · have hrec := feed_response record (List.replicate adapters.length []) t size cs ec
      (by simpa using hlt) hlen (by simpa using hsize) h2
    have hd := deliver_record ec (cs.map (fun c => c.nodes 1))
    rw [List.length_map, hcs] at hd
    rw [hrec, hd]
    simp
  · simp [resp.nodes, nodes_list_eq_flatten]

/-- The response `%1 ~2 :1 :2 :3` (a map of one pair: a set of two numbers,
then a number) and a two-slot destination: slot 0 receives the set header and
its two elements, slot 1 the number `3`. -/
theorem tuple_slot_decode_two_level_witness :
    (static_aggregate_adapter.init [([] : List node), []]).feed record
        ((resp.agg type.map 1
          [resp.agg type.set 2 [resp.leaf type.number "1", resp.leaf type.number "2"],
           resp.leaf type.number "3"]).nodes 0) none =
      some ({ i_ := 2, aggregate_size_ := 0,
              adapters_ :=
                [[{ data_type := type.set, aggregate_size := 2, depth := 1, value := "" },
                  { data_type := type.number, aggregate_size := 1, depth := 2, value := "1" },
                  { data_type := type.number, aggregate_size := 1, depth := 2, value := "2" }],
                 [{ data_type := type.number, aggregate_size := 1, depth := 1, value := "3" }]] },
            none) :=
  (tuple_slot_decode_two_level record [([] : List node), []] type.map 1
    [resp.agg type.set 2 [resp.leaf type.number "1", resp.leaf type.number "2"],
     resp.leaf type.number "3"] none
    (by decide) (by decide) (by decide) (by decide)).2.1

/-- C11. On a well-formed top-level aggregate whose effective child count is
the tuple arity and whose children are each a value without children or a
non-empty aggregate of values without children (sizes being `std::size_t`
values), the cursor and the counter after every call are those of the cursor
rule of the specification: a depth-1 non-aggregate advances the cursor by one at
once, a depth-1 aggregate sets the counter to multiplicity times declared size
without advancing, every depth-2 node decrements the counter and the cursor
advances exactly when the counter reaches zero.  Consequently slot `k` is
called with exactly the nodes of child `k`, and the cursor is the arity after
the last node. -/
theorem tuple_cursor_rule {A : Type} (visit : slot_call A)
    (adapters : List A) (t : type) (size : Nat) (cs : List resp) (ec : error_code)
    (hlt : adapters.length < 2 ^ 64)
    (hwf : (resp.agg t size cs).well_formed = true)
    (hsize : (resp.agg t size cs).effective_size = adapters.length)
    (h2 : ∀ c ∈ cs, c.two_level = true) :
    (static_aggregate_adapter.init adapters).feed_trace visit
          ((resp.agg t size cs).nodes 0) ec =
        some (cursor_rule (0, 0) ((resp.agg t size cs).nodes 0)) ∧
      (∃ s' ec', (static_aggregate_adapter.init adapters).feed visit
            ((resp.agg t size cs).nodes 0) ec = some (s', ec') ∧
          s'.i_ = adapters.length ∧
          (s'.adapters_, ec') = deliver visit adapters (cs.map (fun c => c.nodes 1)) ec) ∧
      (∃ s', (static_aggregate_adapter.init (List.replicate adapters.length [])).feed record
            ((resp.agg t size cs).nodes 0) ec = some (s', ec) ∧
          s'.i_ = adapters.length ∧
          s'.adapters_ = cs.map (fun c => c.nodes 1)) := by
  simp only [resp.well_formed, Bool.and_eq_true, decide_eq_true_eq] at hwf
  obtain ⟨⟨⟨_, _⟩, hlen⟩, _⟩ := hwf
  simp only [resp.effective_size] at hsize
  have hcs : cs.length = adapters.length := by rw [hlen, hsize]
  refine ⟨feed_trace_response visit adapters t size cs ec hlt hlen hsize h2,
    ⟨_, _, feed_response visit adapters t size cs ec hlt hlen hsize h2, rfl, rfl⟩, ?_⟩
  have hrec := feed_response record (List.replicate adapters.length []) t size cs ec
    (by simpa using hlt) hlen (by simpa using hsize) h2
  have hd := deliver_record ec (cs.map (fun c => c.nodes 1))
  rw [List.length_map, hcs] at hd
  rw [hd] at hrec
  simp only [List.length_replicate] at hrec
  exact ⟨_, hrec, rfl, rfl⟩

/-- The response `*3 :1 *2 :2 :3 _` (a number, an array of two numbers, a
null) and a three-slot destination: the cursor and the counter after the header
and after each of the five nodes below it. -/
theorem tuple_cursor_rule_witness :
    (static_aggregate_adapter.init [([] : List node), [], []]).feed_trace record
        ((resp.agg type.array 3
          [resp.leaf type.number "1",
           resp.agg type.array 2 [resp.leaf type.number "2", resp.leaf type.number "3"],
           resp.leaf type.null ""]).nodes 0) none =
      some [(0, 0), (1, 0), (1, 2), (1, 1), (2, 0), (3, 0)] :=
  (tuple_cursor_rule record [([] : List node), [], []] type.array 3
    [resp.leaf type.number "1",
     resp.agg type.array 2 [resp.leaf type.number "2", resp.leaf type.number "3"],
     resp.leaf type.null ""] none
    (by decide) (by decide) (by decide) (by decide)).1

/-- C12 fails on the code.  A depth-0 `map` node of declared size `2^63 + 1`, a
`std::size_t` value, and a destination of two slots: the product computed by
`operator()` wraps around to 2, the call leaves `ec` at success, and yet twice
the declared size is not 2.  The same holds for an `attribute` node.  Below
`2^63` the product does not wrap and the check is exact. -/
theorem size_check_wraps_around :
    (2 ^ 63 + 1 < 2 ^ 64) ∧
      real_aggr_size
          { data_type := type.map, aggregate_size := 2 ^ 63 + 1, depth := 0, value := "" } = 2 ∧
      (static_aggregate_adapter.init [([] : List node), []]).call record
          { data_type := type.map, aggregate_size := 2 ^ 63 + 1, depth := 0, value := "" } none =
        some (static_aggregate_adapter.init [[], []], none) ∧
      (static_aggregate_adapter.init [([] : List node), []]).call record
          { data_type := type.attribute, aggregate_size := 2 ^ 63 + 1, depth := 0, value := "" }
          none =
        some (static_aggregate_adapter.init [[], []], none) ∧
      2 * (2 ^ 63 + 1) ≠ 2 ∧
      (∀ (nd : node) (n : Nat), nd.aggregate_size < 2 ^ 63 →
        (real_aggr_size nd = n ↔
          nd.aggregate_size * element_multiplicity nd.data_type = n)) := by
  refine ⟨by decide, by decide, by decide, by decide, by decide, ?_⟩
  intro nd n h
  have hm : element_multiplicity nd.data_type ≤ 2 := by
    cases nd.data_type <;> simp [element_multiplicity]
  have hfit : nd.aggregate_size * element_multiplicity nd.data_type < 2 ^ 64 := by
    have : nd.aggregate_size * element_multiplicity nd.data_type ≤ nd.aggregate_size * 2 :=
      Nat.mul_le_mul_left _ hm
    omega
  rw [real_aggr_size, size_t_mod, Nat.mod_eq_of_lt hfit]

/-- C13 fails on the code.  The response `*1 *1 *1 :7` (an array holding an
array holding an array holding a number) is well formed and passes the size
check of a one-slot destination.  After the header and the two outer arrays the
cursor is 1, the arity; the call for the number indexes `adapters_[1]`, which is
out of range, and so does the run as a whole. -/
theorem slot_index_out_of_range :
    (resp.agg type.array 1
        [resp.agg type.array 1 [resp.agg type.array 1 [resp.leaf type.number "7"]]]).well_formed
        = true ∧
      real_aggr_size
          { data_type := type.array, aggregate_size := 1, depth := 0, value := "" } = 1 ∧
      (static_aggregate_adapter.init [([] : List node)]).feed record
          [{ data_type := type.array, aggregate_size := 1, depth := 0, value := "" },
           { data_type := type.array, aggregate_size := 1, depth := 1, value := "" },
           { data_type := type.array, aggregate_size := 1, depth := 2, value := "" }] none =
        some ({ i_ := 1, aggregate_size_ := 0,
                adapters_ :=
                  [[{ data_type := type.array, aggregate_size := 1, depth := 1, value := "" },
                    { data_type := type.array, aggregate_size := 1, depth := 2, value := "" }]] },
              none) ∧
      static_aggregate_adapter.call record
          { i_ := 1, aggregate_size_ := 0,
            adapters_ :=
              [[{ data_type := type.array, aggregate_size := 1, depth := 1, value := "" },
                { data_type := type.array, aggregate_size := 1, depth := 2, value := "" }]] }
          { data_type := type.number, aggregate_size := 1, depth := 3, value := "7" } none =
        none ∧
      (static_aggregate_adapter.init [([] : List node)]).feed record
          ((resp.agg type.array 1
            [resp.agg type.array 1
              [resp.agg type.array 1 [resp.leaf type.number "7"]]]).nodes 0) none = none := by
  refine ⟨by decide, by decide, by decide, by decide, by decide⟩

/-- C14. A one-slot destination and a depth-0 node of non-aggregate kind with
`aggregate_size = 1`: the call returns the adapter unchanged (cursor, counter
and the slot adapter, whatever the slot adapter would do with a node) and `ec`
as it was.  The check reads only the size product: any other depth-0 node with
the same product gets the same answer, aggregate or not. -/
theorem one_tuple_accepts_non_aggregate {A : Type} (visit : slot_call A)
    (s : static_aggregate_adapter A) (nd : node) (ec : error_code)
    (hn : s.adapters_.length = 1) (hd : nd.depth = 0)
    (hk : is_aggregate nd.data_type = false) (hs : nd.aggregate_size = 1) :
    s.call visit nd ec = some (s, ec) ∧
      ∀ nd' : node, nd'.depth = 0 → real_aggr_size nd' = real_aggr_size nd →
        s.call visit nd' ec = some (s, ec) := by
  have hm : element_multiplicity nd.data_type = 1 := by
    cases h : nd.data_type <;> simp [h, is_aggregate, element_multiplicity] at hk ⊢
  have hreal : real_aggr_size nd = 1 := by
    simp [real_aggr_size, hs, hm, size_t_mod]
  refine ⟨?_, ?_⟩
  · rw [call_depth_zero visit s nd ec hd, hreal, hn]
    simp
  · intro nd' hd' hsame
    rw [call_depth_zero visit s nd' ec hd', hsame, hreal, hn]
    simp

/-- A one-slot destination and the depth-0 node of `+OK`: no error, the slot
has received nothing; the header of `*1` gets the same answer. -/
theorem one_tuple_accepts_non_aggregate_witness :
    (static_aggregate_adapter.init [([] : List node)]).call record
        { data_type := type.simple_string, aggregate_size := 1, depth := 0, value := "OK" } none =
      some (static_aggregate_adapter.init [[]], none) ∧
    (static_aggregate_adapter.init [([] : List node)]).call record
        { data_type := type.array, aggregate_size := 1, depth := 0, value := "" } none =
      some (static_aggregate_adapter.init [[]], none) :=
  ⟨(one_tuple_accepts_non_aggregate record (static_aggregate_adapter.init [([] : List node)])
      { data_type := type.simple_string, aggregate_size := 1, depth := 0, value := "OK" } none
      rfl rfl rfl rfl).1,
   (one_tuple_accepts_non_aggregate record (static_aggregate_adapter.init [([] : List node)])
      { data_type := type.simple_string, aggregate_size := 1, depth := 0, value := "OK" } none
      rfl rfl rfl rfl).2
      { data_type := type.array, aggregate_size := 1, depth := 0, value := "" } rfl (by decide)⟩

end detail
end adapter
end aedis

/-! ## The connection: request queue, adapters and `close` -/

namespace aedis
namespace generic

open resp3

theorem modify_back_append {α : Type} (f : α → α) (x : α) :
    ∀ (l : List α), modify_back f (l ++ [x]) = l ++ [f x] := by
  intro l
  induction l with
  | nil => rfl
  | cons y l ih =>
    cases l with
    | nil => rfl
    | cons z l => simpa [modify_back] using ih

/-- The queue after `add_request(req)`: one slot more, at the back, which
references `req` and is unsent. -/
theorem add_request_reqs {Command R U : Type} (c : connection Command R U) (req : R) :
    (c.add_request req).reqs_ =
      c.reqs_ ++ [{ channel := channel.fresh, req := some req, sent := false }] := by
  unfold connection.add_request connection.prepare_back
  by_cases h : c.reqs_.isEmpty = true <;> simp [h, modify_back_append]

/-- The timer `wait_write_timer_` after `add_request(req)`. -/
theorem add_request_timer {Command R U : Type} (c : connection Command R U) (req : R) :
    (c.add_request req).wait_write_timer_ =
      if c.reqs_.isEmpty then c.wait_write_timer_.cancel_one else c.wait_write_timer_ := by
  unfold connection.add_request connection.prepare_back
  by_cases h : c.reqs_.isEmpty = true <;> simp [h]

/-- C4. `prepare_back` returns `true` exactly when the queue was empty before
the call, and the queue after the call is the queue before it followed by one
new slot, with a null request and `sent = false`; nothing else changes. -/
theorem prepare_back_can_write {Command R U : Type} (c : connection Command R U) :
    (c.prepare_back.1 = true ↔ c.reqs_ = []) ∧
      c.prepare_back.2.reqs_ =
        c.reqs_ ++ [{ channel := channel.fresh, req := none, sent := false }] ∧
      c.prepare_back.2.reqs_.length = c.reqs_.length + 1 ∧
      c.prepare_back.2.reqs_.getLast?.map (fun s => s.sent) = some false ∧
      c.prepare_back.2 = { c with reqs_ := c.prepare_back.2.reqs_ } := by
  refine ⟨?_, rfl, ?_, ?_, rfl⟩
  · simp [connection.prepare_back, List.isEmpty_iff]
  · simp [connection.prepare_back]
  · simp [connection.prepare_back]

/-- C5. After `add_request(r1)`, ..., `add_request(rN)` the queue is the old
queue followed by `N` new unsent slots that reference `r1`, ..., `rN` in this
order; every slot of the old queue is found at its old position, unchanged. -/
theorem add_requests_queue_order {Command R U : Type} (c : connection Command R U)
    (rs : List R) :
    (rs.foldl connection.add_request c).reqs_ =
        c.reqs_ ++ rs.map (fun r => { channel := channel.fresh, req := some r, sent := false }) ∧
      (∀ i, i < c.reqs_.length →
        (rs.foldl connection.add_request c).reqs_[i]? = c.reqs_[i]?) ∧
      (∀ j, j < rs.length →
        (rs.foldl connection.add_request c).reqs_[c.reqs_.length + j]? =
          rs[j]?.map (fun r => { channel := channel.fresh, req := some r, sent := false })) ∧
      (rs.foldl connection.add_request c).reqs_.length = c.reqs_.length + rs.length := by
  have h : ∀ (rs : List R) (c : connection Command R U),
      (rs.foldl connection.add_request c).reqs_ =
        c.reqs_ ++ rs.map (fun r => { channel := channel.fresh, req := some r, sent := false }) := by
    intro rs
    induction rs with
    | nil => intro c; simp
    | cons r rs ih =>
      intro c
      rw [List.foldl_cons, ih, add_request_reqs]
      simp
  rw [h rs c]
  refine ⟨rfl, ?_, ?_, by simp⟩
  · intro i hi
    exact List.getElem?_append_left hi
  · intro j _
    rw [List.getElem?_append_right (by omega)]
    simp

/-- C6. A node-only user adapter `a`, installed through the second constructor
or through `set_adapter`, is not invoked for the command `ping`: the adapter
obtained from `select_adapter(ping)` returns the user state and `ec` as they
were, for every node, and an adapter that logs its invocations logs none. -/
theorem ping_hidden_from_node_adapter {Command R U : Type} [DecidableEq Command]
    (ping : Command) (a : adapter_type2 U) (c : connection Command R U)
    (c2 : connection Command R (U × List node))
    (nd : node) (ec : error_code) (u : U) (log : List node) :
    (connection.make2 ping a : connection Command R U).select_adapter ping nd ec u = (u, ec) ∧
      (c.set_adapter2 ping a).select_adapter ping nd ec u = (u, ec) ∧
      (connection.make2 ping (traced a) : connection Command R (U × List node)).select_adapter
          ping nd ec (u, log) = ((u, log), ec) ∧
      (c2.set_adapter2 ping (traced a)).select_adapter ping nd ec (u, log) =
        ((u, log), ec) := by
  simp [connection.make2, connection.make, connection.set_adapter2,
    connection.select_adapter, ping_filter]

/-- C7 fails on the code.  A command-aware user adapter, installed through the
first constructor or through `set_adapter`, is what `select_adapter(ping)`
calls: every node of a ping response is handed to the user adapter together
with the command `ping`.  With the logging adapter and the node of `+PONG`, the
log holds that node afterwards. -/
theorem ping_reaches_command_adapter :
    (∀ (Command R U : Type) (ping : Command) (a : adapter_type Command U)
        (c : connection Command R U) (nd : node) (ec : error_code) (u : U),
        (connection.make a : connection Command R U).select_adapter ping nd ec u =
            a ping nd ec u ∧
          (c.set_adapter a).select_adapter ping nd ec u = a ping nd ec u) ∧
      (connection.make log_commands : connection redis.command Nat _).select_adapter
          redis.command.ping
          { data_type := type.simple_string, aggregate_size := 1, depth := 0, value := "PONG" }
          none [] =
        ([(redis.command.ping,
            { data_type := type.simple_string, aggregate_size := 1, depth := 0,
              value := "PONG" })], none) := by
  refine ⟨fun _ _ _ _ _ _ _ _ _ => ⟨rfl, rfl⟩, rfl⟩

/-- C9, as stated, fails.  In the busy connection `read_timer_`, `write_timer_`
and `check_idle_timer_` each have a wait outstanding and an expiry in the
future: `close()` returns these three timers exactly as they were, neither
cancelled nor expired. -/
theorem close_leaves_three_timers :
    (busy_connection.close 0).map
        (fun (c' : connection redis.command Nat Unit) =>
          (c'.read_timer_, c'.write_timer_, c'.check_idle_timer_)) =
      some ({ expiry := 5000, waiting := 1, calls := [] },
            { expiry := 5000, waiting := 1, calls := [] },
            { expiry := 10000, waiting := 1, calls := [] }) ∧
    (busy_connection.close 0).map
        (fun (c' : connection redis.command Nat Unit) =>
          (c'.read_timer_.cancelled || c'.read_timer_.expired 0,
           c'.write_timer_.cancelled || c'.write_timer_.expired 0,
           c'.check_idle_timer_.cancelled || c'.check_idle_timer_.expired 0)) =
      some (false, false, false) ∧
    ¬ (∀ (c c' : connection redis.command Nat Unit) (now : Int), c.close now = some c' →
        (c'.read_timer_.cancelled || c'.read_timer_.expired now) = true ∧
        (c'.ping_timer_.cancelled || c'.ping_timer_.expired now) = true ∧
        (c'.write_timer_.cancelled || c'.write_timer_.expired now) = true ∧
        (c'.wait_write_timer_.cancelled || c'.wait_write_timer_.expired now) = true ∧
        (c'.check_idle_timer_.cancelled || c'.check_idle_timer_.expired now) = true) := by
  refine ⟨by decide, by decide, ?_⟩
  intro h
  have := (h busy_connection _ 0 rfl).1
  revert this
  decide

/-- C9, amended.  Whenever `socket_` is set, `close()` completes; afterwards
the socket is closed, `wait_write_timer_` has had its expiry set to `now` (it is
expired and no wait is outstanding on it), `ping_timer_` is cancelled, both
channels are cancelled and the queue is empty, while `read_timer_`,
`write_timer_`, `check_idle_timer_` and the adapter are exactly as before. -/
theorem close_effects {Command R U : Type} (c : connection Command R U)
    (now : Int) (s : socket) (hs : c.socket_ = some s) :
    ∃ c', c.close now = some c' ∧
      c'.socket_ = some { is_open := false } ∧
      c'.wait_write_timer_ = c.wait_write_timer_.expires_at now ∧
      c'.wait_write_timer_.expired now = true ∧
      c'.wait_write_timer_.cancelled = true ∧
      c'.ping_timer_ = c.ping_timer_.cancel ∧
      c'.ping_timer_.cancelled = true ∧
      c'.read_ch_ = c.read_ch_.cancel ∧ c'.read_ch_.waiting = 0 ∧
      c'.push_ch_ = c.push_ch_.cancel ∧ c'.push_ch_.waiting = 0 ∧
      c'.reqs_ = [] ∧
      c'.read_timer_ = c.read_timer_ ∧
      c'.write_timer_ = c.write_timer_ ∧
      c'.check_idle_timer_ = c.check_idle_timer_ ∧
      c'.adapter_ = c.adapter_ := by
  have h : c.close now = some { c with
      socket_ := some s.close
      wait_write_timer_ := c.wait_write_timer_.expires_at now
      ping_timer_ := c.ping_timer_.cancel
      read_ch_ := c.read_ch_.cancel
      push_ch_ := c.push_ch_.cancel
      reqs_ := [] } := by
    simp [connection.close, hs]
  refine ⟨_, h, ?_⟩
  simp [socket.close, steady_timer.expires_at, steady_timer.expired, steady_timer.cancelled,
    steady_timer.cancel, channel.cancel]

/-- The busy connection closed at time 7: the socket is closed,
`wait_write_timer_` expires at 7 with no wait left, the ping timer and both
channels are cancelled, and `read_timer_` is still waiting. -/
theorem close_effects_witness :
    busy_connection.socket_ = some { is_open := true } ∧
      (busy_connection.close 7).map
        (fun (c' : connection redis.command Nat Unit) =>
          (c'.socket_, c'.wait_write_timer_, c'.ping_timer_, c'.read_ch_, c'.push_ch_,
            c'.read_timer_)) =
      some (some { is_open := false },
            { expiry := 7, waiting := 0, calls := [timer_op.expires_at 7] },
            { expiry := 5000, waiting := 0, calls := [timer_op.cancel] },
            { waiting := 0, cancels := 1 }, { waiting := 0, cancels := 1 },
            { expiry := 5000, waiting := 1, calls := [] }) := by
  obtain ⟨c', hc', h1, h2, _, _, h5, _, h7, _, h9, _, _, h12, _⟩ :=
    close_effects busy_connection 7 { is_open := true } rfl
  refine ⟨rfl, ?_⟩
  rw [hc', Option.map_some', h1, h2, h5, h7, h9, h12]
  rfl

/-- C10. `add_request(req)` calls `wait_write_timer_.cancel_one()` exactly when
the queue was empty before the call: the timer afterwards is the timer after
`cancel_one()` if the queue was empty and the very same timer if it was not, so
a `cancel_one` call is appended to the calls of the timer if and only if the
queue was empty.  In both cases the slot at the back references `req`. -/
theorem add_request_signals_writer {Command R U : Type} (c : connection Command R U)
    (req : R) :
    (c.add_request req).wait_write_timer_ =
        (if c.reqs_.isEmpty then c.wait_write_timer_.cancel_one else c.wait_write_timer_) ∧
      ((c.add_request req).wait_write_timer_.calls =
          c.wait_write_timer_.calls ++ [timer_op.cancel_one] ↔ c.reqs_ = []) ∧
      (c.reqs_ ≠ [] → (c.add_request req).wait_write_timer_ = c.wait_write_timer_) ∧
      (c.reqs_ = [] →
        (c.add_request req).wait_write_timer_ = c.wait_write_timer_.cancel_one) ∧
      (c.add_request req).reqs_.getLast? =
        some { channel := channel.fresh, req := some req, sent := false } := by
  have ht := add_request_timer c req
  refine ⟨ht, ?_, ?_, ?_, ?_⟩
  · rw [ht]
    by_cases h : c.reqs_ = []
    · simp [h, steady_timer.cancel_one]
    · have h' : c.reqs_.isEmpty = false := by simpa [List.isEmpty_iff] using h
      simp [h, h']
  · intro h
    have h' : c.reqs_.isEmpty = false := by simpa [List.isEmpty_iff] using h
    simp [ht, h']
  · intro h
    simp [ht, h]
  · rw [add_request_reqs]
    simp

/-- C15. For a command other than `ping`, the adapter obtained from
`select_adapter(cmd)` after a node-only user adapter `a` was installed through
the second constructor or through `set_adapter` does what `a(nd, ec)` does: the
same user state and the same error result; an adapter that logs its invocations
logs exactly one, with the node `nd`. -/
theorem ping_filter_transparent {Command R U : Type} [DecidableEq Command]
    (ping cmd : Command) (a : adapter_type2 U) (c : connection Command R U)
    (c2 : connection Command R (U × List node))
    (nd : node) (ec : error_code) (u : U) (log : List node) (hcmd : cmd ≠ ping) :
    (connection.make2 ping a : connection Command R U).select_adapter cmd nd ec u =
        a nd ec u ∧
      (c.set_adapter2 ping a).select_adapter cmd nd ec u = a nd ec u ∧
      (connection.make2 ping (traced a) : connection Command R (U × List node)).select_adapter
          cmd nd ec (u, log) = (((a nd ec u).1, log ++ [nd]), (a nd ec u).2) ∧
      (c2.set_adapter2 ping (traced a)).select_adapter cmd nd ec (u, log) =
        (((a nd ec u).1, log ++ [nd]), (a nd ec u).2) := by
  simp [connection.make2, connection.make, connection.set_adapter2,
    connection.select_adapter, ping_filter, hcmd, traced]

/-- The command `get` and a user adapter that counts its calls and reports
`expects_scalar`: through the connection the count goes from 0 to 1, the log
holds the node and the error is the one the adapter set. -/
theorem ping_filter_transparent_witness :
    redis.command.get ≠ redis.command.ping ∧
      (connection.make2 redis.command.ping
          (traced (fun _ _ (k : Nat) => (k + 1, some adapter.error.expects_scalar))) :
          connection redis.command Nat (Nat × List node)).select_adapter redis.command.get
          { data_type := type.array, aggregate_size := 0, depth := 0, value := "" } none (0, []) =
        ((1, [{ data_type := type.array, aggregate_size := 0, depth := 0, value := "" }]),
          some adapter.error.expects_scalar) :=
  ⟨by decide,
   (ping_filter_transparent redis.command.ping redis.command.get
      (fun _ _ (k : Nat) => (k + 1, some adapter.error.expects_scalar))
      (connection.make ignore_adapter : connection redis.command Nat Nat)
      (connection.make ignore_adapter : connection redis.command Nat (Nat × List node))
      { data_type := type.array, aggregate_size := 0, depth := 0, value := "" } none 0 []
      (by decide)).2.2.1⟩

end generic
end aedis
